import Mathlib

/-!
# Verification of the LogDevice topology / replication / rebuilding core

Shallow embedding of `logdevice/common/configuration/ServerConfig.cpp` and
`logdevice/server/rebuilding/RebuildingPlan.h`:

* the cluster-topology snapshot (`ServerConfig`), its node map, derived
  address index and sequencers configuration;
* the failure-domain-aware replication feasibility check
  (`ServerConfig::validStorageSet`);
* the epoch-range rebuilding plan (`RebuildingPlan`).

Types that the source only uses opaquely (sub-configs such as principals,
security, trace-logger, traffic shaping, settings, internal logs, and
`EpochMetaData`) are embedded as opaque one-field structures.  C++ `double`
weights are embedded as `ℚ`; node indices, epochs, versions and LSNs as `Nat`;
network addresses (`Sockaddr`) as `String`.  A fatal invariant violation
(`ld_check` failure) is embedded as an `Option.none` result, and error codes
reported through `err` together with a null or -1 return value are embedded as
`Except Err`.
-/

set_option autoImplicit false

universe u v

/-- Association-list lookup with decidable equality; embeds `std::map::find`
(the node maps, the address index and folly dynamic objects are embedded as
association lists with pairwise-distinct keys). -/
def findKey {α : Type u} {β : Type v} [DecidableEq α] (k : α) : List (α × β) → Option β
  | [] => none
  | p :: rest => if p.1 = k then some p.2 else findKey k rest

/-- Error codes (`logdevice/include/Err.h`, used via the thread-local `err`). -/
inductive Err : Type where
  | NOTFOUND
  | INVALID_PARAM
  | INVALID_CONFIG
deriving DecidableEq, Repr

/-- Storage state of a storage node (closed enumeration from the spec's data
model; `configuration/Node.h` is not part of the sources shown). -/
inductive StorageState : Type where
  | NONE
  | READ_ONLY
  | READ_WRITE
deriving DecidableEq, Repr

/-- A cluster node record.  Modelled from the spec: `configuration/Node.h` is
not among the sources; fields follow the spec's data model (index is the map
key, roles are a finite set embedded as two booleans, location is an ordered
list of scope labels from broadest to narrowest, sequencer weight is a
non-negative real embedded as `ℚ`). -/
structure Node : Type where
  address : String
  generation : Nat
  location : Option (List String)
  hasSequencerRole : Bool
  hasStorageRole : Bool
  sequencerWeight : ℚ
  storageState : StorageState
deriving DecidableEq, Repr

/-- Modelled from the spec: `isWritableStorageNode` "has STORAGE role and
storage state permits writes" (the `Node` method is declared in
`configuration/Node.h`, which is not among the sources). -/
def Node.isWritableStorageNode (n : Node) : Bool :=
  n.hasStorageRole && n.storageState = StorageState.READ_WRITE

/-- Modelled from the spec: a node is sequencer-capable iff it has the
SEQUENCER role (the `isSequencingEnabled` method is declared in
`configuration/Node.h`, which is not among the sources; the spec's snapshot
model derives the sequencers view "for sequencer-capable nodes"). -/
def Node.isSequencingEnabled (n : Node) : Bool :=
  n.hasSequencerRole

/-- A shard: (node index, shard index) — `ShardID`. -/
structure ShardID : Type where
  node : Nat
  shard : Nat
deriving DecidableEq, Repr

/-- Location scopes, broadest to narrowest (`NodeLocationScope` without the
special ROOT scope, which carries no label). -/
inductive Scope : Type where
  | region
  | datacenter
  | cluster
  | row
  | rack
  | node
deriving DecidableEq, Repr

/-- Number of location labels that determine the failure domain at a scope.
At `node` scope the whole location is used and the node itself disambiguates
the domain. -/
def Scope.depth : Scope → Nat
  | .region => 1
  | .datacenter => 2
  | .cluster => 3
  | .row => 4
  | .rack => 5
  | .node => 5

/-- A replication property: minimum required count of distinct failure
domains per scope.  Modelled from the spec (`ReplicationProperty.h` is not
among the sources): "mapping from location-scope to minimum required count of
distinct failure domains at that scope". -/
abbrev ReplicationProperty : Type := List (Scope × Nat)

/-- Modelled from the spec: a replication property is valid iff its scopes
are from the recognized hierarchy (enforced here by the `Scope` type) and its
counts are positive integers. -/
def isValidReplication (r : ReplicationProperty) : Bool :=
  r.all fun p => decide (0 < p.2)

/-- The failure domain of a shard at a scope: the owning node's location
prefix at that scope (nodes without a location share the anonymous `none`
domain), with the node index appended at `node` scope.  Modelled from the
spec (`FailureDomainNodeSet.h` is not among the sources): a failure domain is
"a group of nodes sharing a common location prefix at some topology scope". -/
def shardDomain (cluster_nodes : List (Nat × Node)) (scope : Scope) (sh : ShardID) :
    Option (List String) × Option Nat :=
  match findKey sh.node cluster_nodes with
  | some n => (n.location.map (fun loc => loc.take scope.depth),
               if scope = Scope.node then some sh.node else none)
  | none => (none, some sh.node)

/-- Number of distinct failure domains at `scope` covered by the given
shards. -/
def countDomains (cluster_nodes : List (Nat × Node)) (shards : List ShardID)
    (scope : Scope) : Nat :=
  ((shards.map (shardDomain cluster_nodes scope)).dedup).length

/-- Modelled from the spec: `FailureDomainNodeSet<bool>::canReplicate(true)`
(`FailureDomainNodeSet.h` is not among the sources).  "For each scope
required by `replicationProperty`, partition the eligible (attribute = true)
shards into groups sharing the same location prefix at that scope, and count
the number of distinct groups containing at least one eligible shard ...  The
storage set satisfies that scope's requirement iff the distinct-group count ≥
the required count"; the set can replicate iff every required scope's
condition holds. -/
def canReplicate (cluster_nodes : List (Nat × Node)) (eligible : List ShardID)
    (replication : ReplicationProperty) : Bool :=
  replication.all fun p => decide (p.2 ≤ countDomains cluster_nodes eligible p.1)

/-- The attribute-setting loop of `ServerConfig::validStorageSet` (lines
298-309): walks the storage set; in strict mode a shard whose node index is
absent from the nodes map aborts with `false` (embedded as `none`); a shard
whose owning node exists and `isWritableStorageNode()` gets attribute `true`.
Returns the shards whose attribute was set to `true`, in storage-set order. -/
def eligibleShards (cluster_nodes : List (Nat × Node)) (strict : Bool) :
    List ShardID → Option (List ShardID)
  | [] => some []
  | sh :: rest =>
    match findKey sh.node cluster_nodes with
    | none =>
      if strict then none else eligibleShards cluster_nodes strict rest
    | some n =>
      match eligibleShards cluster_nodes strict rest with
      | none => none
      | some acc =>
        some (if n.isWritableStorageNode then sh :: acc else acc)

/-- Embeds `ServerConfig::validStorageSet` (ServerConfig.cpp lines 286-314): reject
an invalid replication property; set the per-shard boolean attribute (strict
mode failing hard on a shard whose node is absent); then ask whether the
subset of writable storage nodes can satisfy the replication property. -/
def validStorageSet (cluster_nodes : List (Nat × Node)) (storage_set : List ShardID)
    (replication : ReplicationProperty) (strict : Bool) : Bool :=
  if isValidReplication replication then
    match eligibleShards cluster_nodes strict storage_set with
    | none => false
    | some el => canReplicate cluster_nodes el replication
  else false

/-- The boolean attribute a shard receives in `validStorageSet`: its owning
node exists in the topology and is a writable storage node. -/
def eligPred (cluster_nodes : List (Nat × Node)) (sh : ShardID) : Bool :=
  match findKey sh.node cluster_nodes with
  | some n => n.isWritableStorageNode
  | none => false

/-! ## RebuildingPlan (`logdevice/server/rebuilding/RebuildingPlan.h`) -/

/-- Opaque, shared, immutable epoch metadata payload (`EpochMetaData` is used
by the plan only as an opaque `shared_ptr` payload). -/
structure EpochMetaData : Type where
  raw : Nat
deriving DecidableEq, Repr

/-- Embeds `RebuildingPlan` (RebuildingPlan.h lines 26-61): set of half-open epoch
intervals to read, each mapped to an `EpochMetaData`, plus the `untilLSN`
bound and optional smallest timestamp.  The interval collection is kept
sorted by lower bound (`boost::icl::interval_map` iterates intervals in
increasing order). -/
structure RebuildingPlan : Type where
  untilLSN : Nat := 0
  epochsToRead : List ((Nat × Nat) × EpochMetaData) := []
  smallestTimestamp : Option Nat := none
deriving DecidableEq, Repr

/-- Two half-open intervals `[a.1, a.2)` and `[b.1, b.2)` intersect. -/
def intervalsOverlap (a b : Nat × Nat) : Bool :=
  decide (max a.1 b.1 < min a.2 b.2)

/-- Insert an interval into a list sorted by lower bound, keeping it sorted. -/
def insertRange (r : (Nat × Nat) × EpochMetaData) :
    List ((Nat × Nat) × EpochMetaData) → List ((Nat × Nat) × EpochMetaData)
  | [] => [r]
  | q :: rest =>
    if r.1.1 ≤ q.1.1 then r :: q :: rest else q :: insertRange r rest

/-- Modelled from the spec: `RebuildingPlan::addEpochRange` (declared in
RebuildingPlan.h lines 44-48; its body lives in `RebuildingPlan.cpp`, which
is not among the sources).  "Inserts the half-open interval tagged with
`metadata`.  Precondition: the new interval must not overlap any interval
already present.  Overlap is treated as an invariant violation (fatal, not a
recoverable error)" — the fatal abort is embedded as `none`; on success the
interval is added keeping the collection ordered. -/
def RebuildingPlan.addEpochRange (plan : RebuildingPlan) (since until_ : Nat)
    (metadata : EpochMetaData) : Option RebuildingPlan :=
  if plan.epochsToRead.any (fun r => intervalsOverlap (since, until_) r.1) then
    none
  else
    some { plan with
           epochsToRead := insertRange ((since, until_), metadata) plan.epochsToRead }

/-- Embeds `RebuildingPlan::clearEpochRange` (RebuildingPlan.h lines 50-52):
discards all intervals. -/
def RebuildingPlan.clearEpochRange (plan : RebuildingPlan) : RebuildingPlan :=
  { plan with epochsToRead := [] }

/-! ## Config snapshot (`ServerConfig`) -/

/-- Metadata-logs configuration: the metadata nodeset plus the remaining
fields (nodeset selector, metadata log attributes, ...) that the embedded
operations never inspect, kept as one opaque value. -/
structure MetaDataLogsConfig : Type where
  metadata_nodes : List Nat
  rest : Nat
deriving DecidableEq, Repr

/-- Zookeeper sub-config: quorum of address strings and session timeout in
milliseconds (spec §6); the snapshot operations treat it as a value. -/
structure ZookeeperConfig : Type where
  quorum : List String
  session_timeout_ms : Nat
deriving DecidableEq, Repr

/-- Opaque pass-through sub-config (principals). -/
structure PrincipalsConfig : Type where
  raw : Nat
deriving DecidableEq, Repr

/-- Opaque pass-through sub-config (security information). -/
structure SecurityConfig : Type where
  raw : Nat
deriving DecidableEq, Repr

/-- Opaque pass-through sub-config (trace logger). -/
structure TraceLoggerConfig : Type where
  raw : Nat
deriving DecidableEq, Repr

/-- Opaque pass-through sub-config (traffic shaping). -/
structure TrafficShapingConfig : Type where
  raw : Nat
deriving DecidableEq, Repr

/-- Opaque pass-through sub-config (server/client settings). -/
structure SettingsConfig : Type where
  raw : Nat
deriving DecidableEq, Repr

/-- Opaque pass-through sub-config (internal logs). -/
structure InternalLogs : Type where
  raw : Nat
deriving DecidableEq, Repr

/-- Embeds `NodesConfig::getMaxNodeIdx()`: the maximum node index present in the
nodes map, 0 for an empty map (declared in `NodesConfig.h`, not among the
sources; the constructor comment "sequencersConfig_ needs consecutive node
indexes ... pad with zero-weight invalid nodes if there are gaps in
numbering" fixes its meaning). -/
def maxNodeIdx (nodes : List (Nat × Node)) : Nat :=
  (nodes.map Prod.fst).foldl max 0

/-- The address-to-index insertion loop of the `ServerConfig` constructor
(ServerConfig.cpp lines 202-213, address part): insert each node's address;
`ld_check(insert_result.second)` makes a duplicate address a fatal invariant
violation, embedded as `none`. -/
def insertAddrs (acc : List (String × Nat)) :
    List (Nat × Node) → Option (List (String × Nat))
  | [] => some acc
  | (i, n) :: rest =>
    match findKey n.address acc with
    | some _ => none
    | none => insertAddrs (acc ++ [(n.address, i)]) rest

/-- Derived `addrToIndex_` map of a snapshot, or `none` on a duplicate
address. -/
def buildAddrToIndex (nodes : List (Nat × Node)) : Option (List (String × Nat)) :=
  insertAddrs [] nodes

/-- The sequencers-filling loop of the `ServerConfig` constructor
(ServerConfig.cpp lines 202-213, sequencer part): for every node with
sequencing enabled, store `NodeID(i, generation)` and the sequencer weight at
position `i` of the two pre-sized arrays. -/
def fillSeq (ns : List (Option (Nat × Nat))) (ws : List ℚ) :
    List (Nat × Node) → List (Option (Nat × Nat)) × List ℚ
  | [] => (ns, ws)
  | (i, n) :: rest =>
    if n.isSequencingEnabled then
      fillSeq (ns.set i (some (i, n.generation))) (ws.set i n.sequencerWeight) rest
    else
      fillSeq ns ws rest

/-- The `sequencersConfig_` arrays before weight normalization: two arrays of length
`getMaxNodeIdx() + 1` (ServerConfig.cpp lines 195-213), initialized with
invalid node IDs (embedded as `none`) and zero weights, then filled from the
nodes map. -/
def rawSequencersConfig (nodes : List (Nat × Node)) :
    List (Option (Nat × Nat)) × List ℚ :=
  fillSeq (List.replicate (maxNodeIdx nodes + 1) none)
          (List.replicate (maxNodeIdx nodes + 1) 0) nodes

/-- Maximum of a list of weights.  `std::max_element` over the weights vector
(which is never empty here); since the normalization branch fires only when
the maximum is positive, folding `max` with initial value 0 is equivalent to
`*max_element` at every use site. -/
def listMax0 (l : List ℚ) : ℚ :=
  l.foldl max 0

/-- The `sequencersConfig_` arrays after construction (ServerConfig.cpp lines 195-226):
the filled arrays, with every weight divided by the maximum weight when that
maximum is positive. -/
def buildSequencersConfig (nodes : List (Nat × Node)) :
    List (Option (Nat × Nat)) × List ℚ :=
  let raw := rawSequencersConfig nodes
  let mx := listMax0 raw.2
  (raw.1, if 0 < mx then raw.2.map (fun w => w / mx) else raw.2)

/-- The immutable configuration snapshot (`ServerConfig`): primary fields in
constructor order (ServerConfig.cpp lines 167-194), the post-construction
fields set through setters (`version_`, `my_node_id_`, `server_origin_`,
`main_config_metadata_`, `included_config_metadata_`, all default-initialized
to an unset value, embedded as `none` / 0), and the derived fields computed
by the constructor (`addrToIndex_`, `sequencersConfig_`). -/
structure ServerConfig : Type where
  clusterName : String
  clusterCreationTime : Option Nat
  nodesConfig : List (Nat × Node)
  metaDataLogsConfig : MetaDataLogsConfig
  principalsConfig : PrincipalsConfig
  securityConfig : SecurityConfig
  trafficShapingConfig : TrafficShapingConfig
  traceLoggerConfig : TraceLoggerConfig
  zookeeperConfig : ZookeeperConfig
  serverSettingsConfig : SettingsConfig
  clientSettingsConfig : SettingsConfig
  internalLogs : InternalLogs
  nsDelimiter : String
  customFields : List (String × Nat)
  version : Nat
  myNodeID : Option (Nat × Nat)
  serverOrigin : Option (Nat × Nat)
  mainConfigMetadata : Option Nat
  includedConfigMetadata : Option Nat
  addrToIndex : List (String × Nat)
  sequencersNodes : List (Option (Nat × Nat))
  sequencersWeights : List ℚ
deriving DecidableEq, Repr

/-- Embeds `ServerConfig::fromData` and the `ServerConfig` constructor (ServerConfig.cpp
lines 167-226 and 330-360): store the primary fields and compute the derived
address index and sequencers configuration; the `ld_check` on a duplicate
address makes construction fail, embedded as `none`. -/
def fromData (cluster_name : String) (nodes : List (Nat × Node))
    (metadata_logs : MetaDataLogsConfig) (principals : PrincipalsConfig)
    (security : SecurityConfig) (traceLogger : TraceLoggerConfig)
    (trafficShaping : TrafficShapingConfig) (zookeeper : ZookeeperConfig)
    (serverSettings : SettingsConfig) (clientSettings : SettingsConfig)
    (internal : InternalLogs) (creationTime : Option Nat)
    (custom : List (String × Nat)) (nsDelim : String) : Option ServerConfig :=
  match buildAddrToIndex nodes with
  | none => none
  | some a2i =>
    some { clusterName := cluster_name
           clusterCreationTime := creationTime
           nodesConfig := nodes
           metaDataLogsConfig := metadata_logs
           principalsConfig := principals
           securityConfig := security
           trafficShapingConfig := trafficShaping
           traceLoggerConfig := traceLogger
           zookeeperConfig := zookeeper
           serverSettingsConfig := serverSettings
           clientSettingsConfig := clientSettings
           internalLogs := internal
           nsDelimiter := nsDelim
           customFields := custom
           version := 0
           myNodeID := none
           serverOrigin := none
           mainConfigMetadata := none
           includedConfigMetadata := none
           addrToIndex := a2i
           sequencersNodes := (buildSequencersConfig nodes).1
           sequencersWeights := (buildSequencersConfig nodes).2 }

/-- Embeds `ServerConfig::setVersion`. -/
def ServerConfig.setVersion (s : ServerConfig) (v : Nat) : ServerConfig :=
  { s with version := v }

/-- Embeds `ServerConfig::setMyNodeID`. -/
def ServerConfig.setMyNodeID (s : ServerConfig) (nid : Nat × Nat) : ServerConfig :=
  { s with myNodeID := some nid }

/-- Embeds `ServerConfig::setServerOrigin`. -/
def ServerConfig.setServerOrigin (s : ServerConfig) (o : Option (Nat × Nat)) :
    ServerConfig :=
  { s with serverOrigin := o }

/-- Embeds `ServerConfig::setMainConfigMetadata`. -/
def ServerConfig.setMainConfigMetadata (s : ServerConfig) (m : Option Nat) :
    ServerConfig :=
  { s with mainConfigMetadata := m }

/-- Embeds `ServerConfig::setIncludedConfigMetadata`. -/
def ServerConfig.setIncludedConfigMetadata (s : ServerConfig) (m : Option Nat) :
    ServerConfig :=
  { s with includedConfigMetadata := m }

/-- The `if (hasMyNodeID()) config->setMyNodeID(my_node_id_)` step shared by
`copy`, `withNodes`, `withZookeeperConfig` and `withVersion`. -/
def ServerConfig.carryMyNodeID (c : ServerConfig) (old : Option (Nat × Nat)) :
    ServerConfig :=
  match old with
  | some nid => c.setMyNodeID nid
  | none => c

/-- Embeds `ServerConfig::withNodes` (ServerConfig.cpp lines 387-421): intersect the
metadata-logs nodeset with the new nodes map (the loop pushes back exactly the
metadata node indices found in `nodes_map`, i.e. filters the nodeset keeping
order), rebuild the snapshot from the new nodes via `fromData`, and carry
version, my-node-ID and config metadata over. -/
def ServerConfig.withNodes (s : ServerConfig) (nodes : List (Nat × Node)) :
    Option ServerConfig :=
  let metadata_nodes :=
    s.metaDataLogsConfig.metadata_nodes.filter (fun n => (findKey n nodes).isSome)
  match fromData s.clusterName nodes
      { s.metaDataLogsConfig with metadata_nodes := metadata_nodes }
      s.principalsConfig s.securityConfig s.traceLoggerConfig
      s.trafficShapingConfig s.zookeeperConfig s.serverSettingsConfig
      s.clientSettingsConfig s.internalLogs s.clusterCreationTime
      s.customFields s.nsDelimiter with
  | none => none
  | some c =>
    some ((((c.setVersion s.version).carryMyNodeID s.myNodeID).setMainConfigMetadata
            s.mainConfigMetadata).setIncludedConfigMetadata s.includedConfigMetadata)

/-- Embeds `ServerConfig::withZookeeperConfig` (ServerConfig.cpp lines 423-446). -/
def ServerConfig.withZookeeperConfig (s : ServerConfig) (zk : ZookeeperConfig) :
    Option ServerConfig :=
  match fromData s.clusterName s.nodesConfig s.metaDataLogsConfig
      s.principalsConfig s.securityConfig s.traceLoggerConfig
      s.trafficShapingConfig zk s.serverSettingsConfig
      s.clientSettingsConfig s.internalLogs s.clusterCreationTime
      s.customFields s.nsDelimiter with
  | none => none
  | some c =>
    some ((((c.setVersion s.version).carryMyNodeID s.myNodeID).setMainConfigMetadata
            s.mainConfigMetadata).setIncludedConfigMetadata s.includedConfigMetadata)

/-- Embeds `ServerConfig::withVersion` (ServerConfig.cpp lines 448-471). -/
def ServerConfig.withVersion (s : ServerConfig) (v : Nat) : Option ServerConfig :=
  match fromData s.clusterName s.nodesConfig s.metaDataLogsConfig
      s.principalsConfig s.securityConfig s.traceLoggerConfig
      s.trafficShapingConfig s.zookeeperConfig s.serverSettingsConfig
      s.clientSettingsConfig s.internalLogs s.clusterCreationTime
      s.customFields s.nsDelimiter with
  | none => none
  | some c =>
    some ((((c.setVersion v).carryMyNodeID s.myNodeID).setMainConfigMetadata
            s.mainConfigMetadata).setIncludedConfigMetadata s.includedConfigMetadata)

/-- Embeds `ServerConfig::copy` (ServerConfig.cpp lines 362-385): unlike the
`with...` operations it also carries the server origin over. -/
def ServerConfig.copy (s : ServerConfig) : Option ServerConfig :=
  match fromData s.clusterName s.nodesConfig s.metaDataLogsConfig
      s.principalsConfig s.securityConfig s.traceLoggerConfig
      s.trafficShapingConfig s.zookeeperConfig s.serverSettingsConfig
      s.clientSettingsConfig s.internalLogs s.clusterCreationTime
      s.customFields s.nsDelimiter with
  | none => none
  | some c =>
    some ((((((c.setVersion s.version).carryMyNodeID s.myNodeID).setServerOrigin
            s.serverOrigin).setMainConfigMetadata
            s.mainConfigMetadata).setIncludedConfigMetadata s.includedConfigMetadata))

/-- Embeds `ServerConfig::getNode(node_index_t)` (ServerConfig.cpp lines 228-236). -/
def getNode (nodes : List (Nat × Node)) (index : Nat) : Except Err Node :=
  match findKey index nodes with
  | none => .error .NOTFOUND
  | some n => .ok n

/-- Embeds `ServerConfig::getNode(const NodeID&)` (ServerConfig.cpp lines 238-255)
for structurally valid node IDs; the `id.isNodeID()` guard on line 239 only
rejects corrupted `NodeID` values (its definition lives in `NodeID.h`, not
among the sources) and is not part of the claims. -/
def getNodeByID (nodes : List (Nat × Node)) (index generation : Nat) :
    Except Err Node :=
  match getNode nodes index with
  | .error _ => .error .NOTFOUND
  | .ok n =>
    if generation ≠ 0 ∧ n.generation ≠ generation then .error .NOTFOUND
    else .ok n

/-- Embeds `ServerConfig::getNodeID(const Sockaddr&, NodeID*)` (ServerConfig.cpp
lines 257-270): reverse lookup through `addrToIndex_`; success (return 0,
node ID written through the out-parameter) is embedded as `.ok`, the -1 /
`E::NOTFOUND` failure as `.error`.  The inner `none` branch is unreachable for
constructed snapshots: the constructor's `ld_check` guarantees every indexed
address maps back to a node. -/
def ServerConfig.getNodeID (s : ServerConfig) (address : String) :
    Except Err (Nat × Nat) :=
  match findKey address s.addrToIndex with
  | none => .error .NOTFOUND
  | some index =>
    match findKey index s.nodesConfig with
    | some n => .ok (index, n.generation)
    | none => .error .NOTFOUND

/-- Embeds `config_recognized_keys` (ServerConfig.cpp lines 46-64), in source
order. -/
def configRecognizedKeys : List String :=
  ["client_settings",
   "cluster",
   "cluster_creation_time",
   "defaults",
   "include_log_config",
   "log_namespace_delimiter",
   "logs",
   "nodes",
   "metadata_logs",
   "principals",
   "security_information",
   "server_settings",
   "trace-logger",
   "traffic_shaping",
   "version",
   "zookeeper"]

/-- The custom-fields loop of `ServerConfig::fromJson` (ServerConfig.cpp
lines 138-146): every top-level key of the parsed document that is not in
`config_recognized_keys` is copied verbatim into `customFields`; the values
are opaque here. -/
def customFieldsOf (parsed : List (String × Nat)) : List (String × Nat) :=
  parsed.filter (fun kv => ¬ configRecognizedKeys.contains kv.1)

/-! ## Concrete instances used by the witnesses and counterexamples -/

/-- Rack-scenario example: writable storage node in rack 1. -/
def nodeA : Node :=
  { address := "a", generation := 1,
    location := some ["rg", "dc", "cl", "rw", "rk1"],
    hasSequencerRole := false, hasStorageRole := true,
    sequencerWeight := 0, storageState := .READ_WRITE }

/-- Rack-scenario example: second writable storage node in rack 1. -/
def nodeB : Node :=
  { nodeA with address := "b" }

/-- Rack-scenario example: writable storage node in rack 2. -/
def nodeC : Node :=
  { nodeA with
    address := "c"
    location := some ["rg", "dc", "cl", "rw", "rk2"] }

/-- Rack-scenario topology: A and B in rack 1, C in rack 2, all writable. -/
def exTopology : List (Nat × Node) :=
  [(0, nodeA), (1, nodeB), (2, nodeC)]

/-- Replication property requiring 2 distinct racks. -/
def exRep : ReplicationProperty :=
  [(Scope.rack, 2)]

/-- Storage set {A, B, C}. -/
def ssABC : List ShardID :=
  [⟨0, 0⟩, ⟨1, 0⟩, ⟨2, 0⟩]

/-- Storage set {A, B} (confined to rack 1). -/
def ssAB : List ShardID :=
  [⟨0, 0⟩, ⟨1, 0⟩]

/-- Rebuilding-plan example after `addEpochRange(1, 10, M1)`. -/
def exPlanA : RebuildingPlan :=
  { epochsToRead := [((1, 10), ⟨1⟩)] }

/-- Rebuilding-plan example after a further `addEpochRange(10, 20, M2)`. -/
def exPlanB : RebuildingPlan :=
  { epochsToRead := [((1, 10), ⟨1⟩), ((10, 20), ⟨2⟩)] }

/-- Two storage nodes sharing the address "x". -/
def dupNodeX : Node :=
  { nodeA with address := "x" }

/-- Second node with the duplicate address "x". -/
def dupNodeY : Node :=
  { nodeB with address := "x" }

/-- A nodes map with a duplicate address. -/
def dupNodes : List (Nat × Node) :=
  [(0, dupNodeX), (1, dupNodeY)]

/-- A well-formed two-node map with distinct addresses "a" and "b". -/
def goodNodes : List (Nat × Node) :=
  [(0, nodeA), (1, { nodeB with generation := 2 })]

/-- Fallback snapshot value used only to unwrap `Option ServerConfig` on
concrete inputs whose construction provably succeeds. -/
def arbitraryConfig : ServerConfig :=
  { clusterName := "", clusterCreationTime := none, nodesConfig := [],
    metaDataLogsConfig := ⟨[], 0⟩, principalsConfig := ⟨0⟩,
    securityConfig := ⟨0⟩, trafficShapingConfig := ⟨0⟩,
    traceLoggerConfig := ⟨0⟩, zookeeperConfig := ⟨[], 0⟩,
    serverSettingsConfig := ⟨0⟩, clientSettingsConfig := ⟨0⟩,
    internalLogs := ⟨0⟩, nsDelimiter := "", customFields := [],
    version := 0, myNodeID := none, serverOrigin := none,
    mainConfigMetadata := none, includedConfigMetadata := none,
    addrToIndex := [], sequencersNodes := [], sequencersWeights := [] }

/-- Snapshot built from `goodNodes`. -/
def exCfg5 : ServerConfig :=
  (fromData "c5" goodNodes ⟨[], 0⟩ ⟨0⟩ ⟨0⟩ ⟨0⟩ ⟨0⟩ ⟨[], 0⟩ ⟨0⟩ ⟨0⟩ ⟨0⟩
    none [] "/").getD arbitraryConfig

/-- Snapshot built from `goodNodes` with metadata nodeset [0, 1]. -/
def exCfg5Meta : ServerConfig :=
  (fromData "c7" goodNodes ⟨[0, 1], 0⟩ ⟨0⟩ ⟨0⟩ ⟨0⟩ ⟨0⟩ ⟨[], 0⟩ ⟨0⟩ ⟨0⟩ ⟨0⟩
    none [] "/").getD arbitraryConfig

/-- A sequencer-capable node with raw sequencer weight 2. -/
def seqNode2 : Node :=
  { address := "s", generation := 1, location := none,
    hasSequencerRole := true, hasStorageRole := false,
    sequencerWeight := 2, storageState := .NONE }

/-- A one-node map whose only node is sequencer-capable with weight 2. -/
def seqNodes2 : List (Nat × Node) :=
  [(0, seqNode2)]

/-- A snapshot carrying a non-default server origin (set through
`setServerOrigin`, as external callers do). -/
def exCfg8 : ServerConfig :=
  (((fromData "c8" [] ⟨[], 0⟩ ⟨0⟩ ⟨0⟩ ⟨0⟩ ⟨0⟩ ⟨[], 0⟩ ⟨0⟩ ⟨0⟩ ⟨0⟩
    none [] "/").getD arbitraryConfig).setMyNodeID (4, 2)).setServerOrigin
    (some (3, 1))

/-- The result of `exCfg8.withVersion 7`. -/
def exCfg8v : ServerConfig :=
  (exCfg8.withVersion 7).getD arbitraryConfig

/-! ## Helper lemmas: association-list lookup -/

section FindKey

variable {α : Type u} {β : Type v} [DecidableEq α]

theorem findKey_eq_none_iff {k : α} {l : List (α × β)} :
    findKey k l = none ↔ ∀ p ∈ l, p.1 ≠ k := by
  induction l with
  | nil => simp [findKey]
  | cons p rest ih =>
    by_cases h : p.1 = k <;> simp [findKey, h, ih]

theorem findKey_mem {k : α} {v : β} {l : List (α × β)}
    (h : findKey k l = some v) : (k, v) ∈ l := by
  induction l with
  | nil => simp [findKey] at h
  | cons p rest ih =>
    obtain ⟨a, b⟩ := p
    by_cases hp : a = k
    · subst hp
      simp [findKey] at h
      subst h
      exact List.mem_cons_self _ _
    · simp [findKey, hp] at h
      exact List.mem_cons_of_mem _ (ih h)

theorem findKey_of_mem {k : α} {v : β} {l : List (α × β)}
    (hnd : (l.map Prod.fst).Nodup) (h : (k, v) ∈ l) : findKey k l = some v := by
  induction l with
  | nil => simp at h
  | cons p rest ih =>
    simp only [List.map_cons, List.nodup_cons] at hnd
    rcases List.mem_cons.mp h with h1 | h1
    · simp [findKey, ← h1]
    · have hk : p.1 ≠ k := by
        intro hpk
        exact hnd.1 (hpk ▸ (List.mem_map.mpr ⟨(k, v), h1, rfl⟩))
      simp [findKey, hk, ih hnd.2 h1]

theorem findKey_append_some {k : α} {v : β} {l1 l2 : List (α × β)}
    (h : findKey k l1 = some v) : findKey k (l1 ++ l2) = some v := by
  induction l1 with
  | nil => simp [findKey] at h
  | cons p rest ih =>
    by_cases hp : p.1 = k <;> simp_all [findKey, hp]

theorem findKey_append_none {k : α} {l1 l2 : List (α × β)}
    (h : findKey k l1 = none) : findKey k (l1 ++ l2) = findKey k l2 := by
  induction l1 with
  | nil => simp [findKey]
  | cons p rest ih =>
    by_cases hp : p.1 = k <;> simp_all [findKey, hp]

theorem findKey_isSome_iff {k : α} {l : List (α × β)} :
    (findKey k l).isSome = true ↔ ∃ p ∈ l, p.1 = k := by
  constructor
  · intro hs
    obtain ⟨v, hv⟩ := Option.isSome_iff_exists.mp hs
    exact ⟨(k, v), findKey_mem hv, rfl⟩
  · rintro ⟨⟨a, b⟩, hp, rfl⟩
    cases hfk : findKey a l with
    | some v => rfl
    | none => exact absurd rfl (findKey_eq_none_iff.mp hfk (a, b) hp)

end FindKey

/-! ## Helper lemmas: folded maxima -/

section FoldMax

variable {α : Type u} [LinearOrder α]

theorem le_foldl_max (l : List α) (a : α) : a ≤ l.foldl max a := by
  induction l generalizing a with
  | nil => exact le_refl a
  | cons x t ih => exact le_trans (le_max_left a x) (ih (max a x))

theorem le_foldl_max_of_mem {x : α} {l : List α} (h : x ∈ l) (a : α) :
    x ≤ l.foldl max a := by
  induction l generalizing a with
  | nil => simp at h
  | cons y t ih =>
    simp only [List.foldl_cons]
    rcases List.mem_cons.mp h with h1 | h1
    · rw [h1]
      exact le_trans (le_max_right a y) (le_foldl_max t (max a y))
    · exact ih h1 (max a y)

theorem foldl_max_le {b : α} {l : List α} (h : ∀ x ∈ l, x ≤ b) {a : α}
    (ha : a ≤ b) : l.foldl max a ≤ b := by
  induction l generalizing a with
  | nil => exact ha
  | cons y t ih =>
    exact ih (fun x hx => h x (List.mem_cons_of_mem _ hx))
      (max_le ha (h y (List.mem_cons_self _ _)))

theorem max_div_pos (a b c : ℚ) (hc : 0 < c) :
    max (a / c) (b / c) = max a b / c := by
  rcases le_total a b with h | h
  · rw [max_eq_right h, max_eq_right ((div_le_div_iff_of_pos_right hc).mpr h)]
  · rw [max_eq_left h, max_eq_left ((div_le_div_iff_of_pos_right hc).mpr h)]

theorem foldl_max_map_div (c : ℚ) (hc : 0 < c) (l : List ℚ) :
    ∀ a : ℚ, (l.map fun x => x / c).foldl max (a / c) = (l.foldl max a) / c := by
  induction l with
  | nil => intro a; rfl
  | cons x t ih =>
    intro a
    simp only [List.map_cons, List.foldl_cons]
    rw [max_div_pos a x c hc]
    exact ih (max a x)

theorem listMax0_map_div (c : ℚ) (hc : 0 < c) (l : List ℚ) :
    listMax0 (l.map fun x => x / c) = listMax0 l / c := by
  unfold listMax0
  have h := foldl_max_map_div c hc l 0
  rw [zero_div] at h
  exact h

theorem listMax0_eq_zero {l : List ℚ} (h : ∀ x ∈ l, x = 0) :
    listMax0 l = 0 := by
  refine le_antisymm ?_ (le_foldl_max l 0)
  exact foldl_max_le (fun x hx => le_of_eq (h x hx)) (le_refl 0)

end FoldMax

/-! ## Helper lemmas: the address index -/

theorem insertAddrs_some_preserves {l : List (Nat × Node)} :
    ∀ {acc m : List (String × Nat)}, insertAddrs acc l = some m →
      ∀ {a : String} {i : Nat}, findKey a acc = some i → findKey a m = some i := by
  induction l with
  | nil =>
    intro acc m h a i ha
    simp only [insertAddrs, Option.some.injEq] at h
    exact h ▸ ha
  | cons p rest ih =>
    intro acc m h a i ha
    obtain ⟨j, n⟩ := p
    cases hf : findKey n.address acc with
    | some _ => simp [insertAddrs, hf] at h
    | none =>
      simp only [insertAddrs, hf] at h
      exact ih h (findKey_append_some ha)

theorem insertAddrs_some_mem {l : List (Nat × Node)} :
    ∀ {acc m : List (String × Nat)}, insertAddrs acc l = some m →
      ∀ {i : Nat} {n : Node}, (i, n) ∈ l → findKey n.address m = some i := by
  induction l with
  | nil =>
    intro acc m _ i n hmem
    simp at hmem
  | cons p rest ih =>
    intro acc m h i n hmem
    obtain ⟨j, nd⟩ := p
    cases hf : findKey nd.address acc with
    | some _ => simp [insertAddrs, hf] at h
    | none =>
      simp only [insertAddrs, hf] at h
      rcases List.mem_cons.mp hmem with h1 | h1
      · obtain ⟨hji, hnd⟩ := Prod.mk.injEq .. ▸ h1
        subst hji hnd
        refine insertAddrs_some_preserves h ?_
        rw [findKey_append_none hf]
        simp [findKey]
      · exact ih h h1

theorem insertAddrs_dup_in_acc {l : List (Nat × Node)} :
    ∀ {acc : List (String × Nat)} {j : Nat} {m : Node}, (j, m) ∈ l →
      (findKey m.address acc).isSome = true → insertAddrs acc l = none := by
  induction l with
  | nil =>
    intro acc j m hmem _
    simp at hmem
  | cons p rest ih =>
    intro acc j m hmem hs
    obtain ⟨k, nd⟩ := p
    cases hf : findKey nd.address acc with
    | some _ => simp [insertAddrs, hf]
    | none =>
      simp only [insertAddrs, hf]
      rcases List.mem_cons.mp hmem with h1 | h1
      · obtain ⟨hjk, hnd⟩ := Prod.mk.injEq .. ▸ h1
        subst hnd
        rw [hf] at hs
        simp at hs
      · refine ih h1 ?_
        obtain ⟨v, hv⟩ := Option.isSome_iff_exists.mp hs
        rw [findKey_append_some hv]
        rfl

theorem insertAddrs_dup {l : List (Nat × Node)}
    (hnd : (l.map Prod.fst).Nodup) {i j : Nat} {n m : Node}
    (hi : (i, n) ∈ l) (hj : (j, m) ∈ l) (hij : i ≠ j)
    (haddr : n.address = m.address) :
    ∀ acc : List (String × Nat), insertAddrs acc l = none := by
  induction l with
  | nil => simp at hi
  | cons p rest ih =>
    intro acc
    obtain ⟨k, nd⟩ := p
    simp only [List.map_cons, List.nodup_cons] at hnd
    cases hf : findKey nd.address acc with
    | some _ => simp [insertAddrs, hf]
    | none =>
      simp only [insertAddrs, hf]
      have happ : ∀ a : String, a = nd.address →
          (findKey a (acc ++ [(nd.address, k)])).isSome = true := by
        intro a ha
        rw [ha, findKey_append_none hf]
        simp [findKey]
      rcases List.mem_cons.mp hi with h1 | h1
      · -- the first duplicate is at the head, the second is in the tail
        obtain ⟨hik, hn⟩ := Prod.mk.injEq .. ▸ h1
        subst hik hn
        have hjr : (j, m) ∈ rest := by
          rcases List.mem_cons.mp hj with h2 | h2
          · exact absurd (Prod.mk.injEq .. ▸ h2).1.symm hij
          · exact h2
        exact insertAddrs_dup_in_acc hjr (happ m.address haddr.symm)
      · rcases List.mem_cons.mp hj with h2 | h2
        · -- the second duplicate is at the head, the first is in the tail
          obtain ⟨hjk, hm⟩ := Prod.mk.injEq .. ▸ h2
          subst hjk hm
          exact insertAddrs_dup_in_acc h1 (happ n.address haddr)
        · exact ih hnd.2 h1 h2 (acc ++ [(nd.address, k)])

theorem insertAddrs_absent {l : List (Nat × Node)} :
    ∀ {acc m : List (String × Nat)}, insertAddrs acc l = some m →
      ∀ {a : String}, (∀ p ∈ l, p.2.address ≠ a) → findKey a acc = none →
        findKey a m = none := by
  induction l with
  | nil =>
    intro acc m h a _ hacc
    simp only [insertAddrs, Option.some.injEq] at h
    exact h ▸ hacc
  | cons p rest ih =>
    intro acc m h a hl hacc
    obtain ⟨k, nd⟩ := p
    cases hf : findKey nd.address acc with
    | some _ => simp [insertAddrs, hf] at h
    | none =>
      simp only [insertAddrs, hf] at h
      refine ih h (fun q hq => hl q (List.mem_cons_of_mem _ hq)) ?_
      rw [findKey_append_none hacc]
      have hne : nd.address ≠ a := hl (k, nd) (List.mem_cons_self _ _)
      simp [findKey, hne]

/-! ## Helper lemmas: the attribute-setting loop of `validStorageSet` -/

theorem eligibleShards_false (cluster_nodes : List (Nat × Node)) :
    ∀ ss : List ShardID,
      eligibleShards cluster_nodes false ss = some (ss.filter (eligPred cluster_nodes)) := by
  intro ss
  induction ss with
  | nil => simp [eligibleShards]
  | cons sh rest ih =>
    cases hf : findKey sh.node cluster_nodes with
    | none =>
      simp only [eligibleShards, hf, if_neg Bool.false_ne_true, ih,
        List.filter_cons]
      have : eligPred cluster_nodes sh = false := by
        simp [eligPred, hf]
      simp [this]
    | some n =>
      simp only [eligibleShards, hf, ih, List.filter_cons]
      have : eligPred cluster_nodes sh = n.isWritableStorageNode := by
        simp [eligPred, hf]
      cases hw : n.isWritableStorageNode <;> simp [this, hw]

theorem eligibleShards_true_of_present (cluster_nodes : List (Nat × Node)) :
    ∀ ss : List ShardID, (∀ sh ∈ ss, (findKey sh.node cluster_nodes).isSome = true) →
      eligibleShards cluster_nodes true ss = some (ss.filter (eligPred cluster_nodes)) := by
  intro ss
  induction ss with
  | nil => intro _; simp [eligibleShards]
  | cons sh rest ih =>
    intro hp
    cases hf : findKey sh.node cluster_nodes with
    | none =>
      have := hp sh (List.mem_cons_self _ _)
      rw [hf] at this
      simp at this
    | some n =>
      have ihr := ih (fun s hs => hp s (List.mem_cons_of_mem _ hs))
      simp only [eligibleShards, hf, ihr, List.filter_cons]
      have : eligPred cluster_nodes sh = n.isWritableStorageNode := by
        simp [eligPred, hf]
      cases hw : n.isWritableStorageNode <;> simp [this, hw]

theorem eligibleShards_true_absent (cluster_nodes : List (Nat × Node)) :
    ∀ ss : List ShardID, ∀ sh ∈ ss, findKey sh.node cluster_nodes = none →
      eligibleShards cluster_nodes true ss = none := by
  intro ss
  induction ss with
  | nil => intro sh h; simp at h
  | cons s rest ih =>
    intro sh hmem habs
    rcases List.mem_cons.mp hmem with h1 | h1
    · subst h1
      simp [eligibleShards, habs]
    · cases hf : findKey s.node cluster_nodes with
      | none => simp [eligibleShards, hf]
      | some n =>
        simp [eligibleShards, hf, ih sh h1 habs]

/-! ## Helper lemmas: the sequencers configuration -/

theorem mem_le_maxNodeIdx {nodes : List (Nat × Node)} {i : Nat} {n : Node}
    (h : (i, n) ∈ nodes) : i ≤ maxNodeIdx nodes := by
  have hmem : i ∈ nodes.map Prod.fst := List.mem_map.mpr ⟨(i, n), h, rfl⟩
  unfold maxNodeIdx
  exact le_foldl_max_of_mem hmem 0

theorem fillSeq_length (l : List (Nat × Node)) :
    ∀ (ns : List (Option (Nat × Nat))) (ws : List ℚ),
      (fillSeq ns ws l).1.length = ns.length ∧
      (fillSeq ns ws l).2.length = ws.length := by
  induction l with
  | nil => intro ns ws; exact ⟨rfl, rfl⟩
  | cons p rest ih =>
    intro ns ws
    obtain ⟨j, n⟩ := p
    cases hs : n.isSequencingEnabled with
    | false => simpa [fillSeq, hs] using ih ns ws
    | true =>
      simp only [fillSeq, hs, if_pos rfl]
      have := ih (ns.set j (some (j, n.generation))) (ws.set j n.sequencerWeight)
      simpa [List.length_set] using this

theorem fillSeq_get_not_mem (l : List (Nat × Node)) {i : Nat}
    (h : i ∉ l.map Prod.fst) :
    ∀ (ns : List (Option (Nat × Nat))) (ws : List ℚ),
      (fillSeq ns ws l).1[i]? = ns[i]? ∧ (fillSeq ns ws l).2[i]? = ws[i]? := by
  induction l with
  | nil => intro ns ws; exact ⟨rfl, rfl⟩
  | cons p rest ih =>
    intro ns ws
    obtain ⟨j, n⟩ := p
    simp only [List.map_cons, List.mem_cons] at h
    push_neg at h
    have hji : j ≠ i := fun hj => h.1 hj.symm
    have ihr := ih h.2
    cases hs : n.isSequencingEnabled with
    | false => simpa [fillSeq, hs] using ihr ns ws
    | true =>
      simp only [fillSeq, hs, if_pos rfl]
      have := ihr (ns.set j (some (j, n.generation))) (ws.set j n.sequencerWeight)
      rw [List.getElem?_set_ne hji, List.getElem?_set_ne hji] at this
      exact this

theorem fillSeq_get_mem (l : List (Nat × Node))
    (hnd : (l.map Prod.fst).Nodup) {i : Nat} {n : Node} (hmem : (i, n) ∈ l) :
    ∀ (ns : List (Option (Nat × Nat))) (ws : List ℚ),
      i < ns.length → i < ws.length →
      (n.isSequencingEnabled = true →
        (fillSeq ns ws l).1[i]? = some (some (i, n.generation)) ∧
        (fillSeq ns ws l).2[i]? = some n.sequencerWeight) ∧
      (n.isSequencingEnabled = false →
        (fillSeq ns ws l).1[i]? = ns[i]? ∧ (fillSeq ns ws l).2[i]? = ws[i]?) := by
  induction l with
  | nil => simp at hmem
  | cons p rest ih =>
    intro ns ws hns hws
    obtain ⟨j, m⟩ := p
    simp only [List.map_cons, List.nodup_cons] at hnd
    rcases List.mem_cons.mp hmem with h1 | h1
    · obtain ⟨hij, hnm⟩ := Prod.mk.injEq .. ▸ h1
      subst hij hnm
      have hnotin : i ∉ rest.map Prod.fst := hnd.1
      constructor
      · intro hs
        simp only [fillSeq, hs, if_pos rfl]
        have := fillSeq_get_not_mem rest hnotin
          (ns.set i (some (i, n.generation))) (ws.set i n.sequencerWeight)
        rw [List.getElem?_set_self hns, List.getElem?_set_self hws] at this
        exact this
      · intro hs
        simp only [fillSeq, hs, Bool.false_eq_true, if_false]
        exact fillSeq_get_not_mem rest hnotin ns ws
    · have hji : j ≠ i := by
        intro hj
        exact hnd.1 (hj ▸ List.mem_map.mpr ⟨(i, n), h1, rfl⟩)
      cases hs : m.isSequencingEnabled with
      | false =>
        simp only [fillSeq, hs, Bool.false_eq_true, if_false]
        exact ih hnd.2 h1 ns ws hns hws
      | true =>
        simp only [fillSeq, hs, if_pos rfl]
        have := ih hnd.2 h1 (ns.set j (some (j, m.generation)))
          (ws.set j m.sequencerWeight)
          (by simpa [List.length_set] using hns)
          (by simpa [List.length_set] using hws)
        rw [List.getElem?_set_ne hji, List.getElem?_set_ne hji] at this
        exact this

theorem fillSeq_zero (l : List (Nat × Node)) :
    ∀ (ns : List (Option (Nat × Nat))) (ws : List ℚ),
      (∀ x ∈ ws, x = 0) → (∀ p ∈ l, p.2.sequencerWeight = 0) →
      ∀ x ∈ (fillSeq ns ws l).2, x = 0 := by
  induction l with
  | nil => intro ns ws hws _; exact hws
  | cons p rest ih =>
    intro ns ws hws hl
    obtain ⟨j, n⟩ := p
    cases hs : n.isSequencingEnabled with
    | false =>
      simp only [fillSeq, hs, Bool.false_eq_true, if_false]
      exact ih ns ws hws (fun q hq => hl q (List.mem_cons_of_mem _ hq))
    | true =>
      simp only [fillSeq, hs, if_pos rfl]
      refine ih _ _ ?_ (fun q hq => hl q (List.mem_cons_of_mem _ hq))
      intro x hx
      rcases List.mem_or_eq_of_mem_set hx with h1 | h1
      · exact hws x h1
      · rw [h1]
        exact hl (j, n) (List.mem_cons_self _ _)

theorem rawSeq_length (nodes : List (Nat × Node)) :
    (rawSequencersConfig nodes).1.length = maxNodeIdx nodes + 1 ∧
    (rawSequencersConfig nodes).2.length = maxNodeIdx nodes + 1 := by
  unfold rawSequencersConfig
  have := fillSeq_length nodes (List.replicate (maxNodeIdx nodes + 1) none)
    (List.replicate (maxNodeIdx nodes + 1) 0)
  simpa [List.length_replicate] using this

theorem rawSeq_spec {nodes : List (Nat × Node)}
    (hnd : (nodes.map Prod.fst).Nodup) {i : Nat} (hi : i ≤ maxNodeIdx nodes) :
    ((rawSequencersConfig nodes).1[i]?, (rawSequencersConfig nodes).2[i]?) =
      match findKey i nodes with
      | some n =>
        if n.isSequencingEnabled then
          (some (some (i, n.generation)), some n.sequencerWeight)
        else (some none, some (0 : ℚ))
      | none => (some none, some (0 : ℚ)) := by
  have hlt : i < maxNodeIdx nodes + 1 := Nat.lt_succ_of_le hi
  have hrepn : (List.replicate (maxNodeIdx nodes + 1)
      (none : Option (Nat × Nat)))[i]? = some none :=
    List.getElem?_replicate_of_lt hlt
  have hrepw : (List.replicate (maxNodeIdx nodes + 1) (0 : ℚ))[i]? = some 0 :=
    List.getElem?_replicate_of_lt hlt
  cases hf : findKey i nodes with
  | none =>
    have hnotin : i ∉ nodes.map Prod.fst := by
      intro hin
      obtain ⟨p, hp, hpi⟩ := List.mem_map.mp hin
      exact absurd rfl (hpi ▸ findKey_eq_none_iff.mp hf p hp)
    have := fillSeq_get_not_mem nodes hnotin
      (List.replicate (maxNodeIdx nodes + 1) none)
      (List.replicate (maxNodeIdx nodes + 1) 0)
    unfold rawSequencersConfig
    rw [Prod.mk.injEq]
    exact ⟨this.1.trans hrepn, this.2.trans hrepw⟩
  | some n =>
    have hmem : (i, n) ∈ nodes := findKey_mem hf
    have hlen : i < (List.replicate (maxNodeIdx nodes + 1)
        (none : Option (Nat × Nat))).length := by
      simpa [List.length_replicate] using hlt
    have hlenw : i < (List.replicate (maxNodeIdx nodes + 1) (0 : ℚ)).length := by
      simpa [List.length_replicate] using hlt
    have hchar := fillSeq_get_mem nodes hnd hmem
      (List.replicate (maxNodeIdx nodes + 1) none)
      (List.replicate (maxNodeIdx nodes + 1) 0) hlen hlenw
    unfold rawSequencersConfig
    cases hs : n.isSequencingEnabled with
    | true =>
      obtain ⟨h1, h2⟩ := hchar.1 hs
      simp only [hs, if_pos rfl]
      rw [Prod.mk.injEq]
      exact ⟨h1, h2⟩
    | false =>
      obtain ⟨h1, h2⟩ := hchar.2 hs
      simp only [hs, Bool.false_eq_true, if_false]
      rw [Prod.mk.injEq]
      exact ⟨h1.trans hrepn, h2.trans hrepw⟩

/-! ## Claim theorems -/

/-- C1: for every topology, storage set and valid replication property (and
any strict flag, provided in strict mode every shard's node exists, since a
missing node then fails the check outright — see C3), `validStorageSet`
returns true iff for every scope required by the replication property the
number of distinct failure-domain groups at that scope containing at least
one eligible (writable) shard is at least that scope's required count. -/
theorem validStorageSet_distinct_domains (cluster_nodes : List (Nat × Node))
    (storage_set : List ShardID) (replication : ReplicationProperty)
    (strict : Bool) (hv : isValidReplication replication = true)
    (hp : strict = true →
      ∀ sh ∈ storage_set, (findKey sh.node cluster_nodes).isSome = true) :
    validStorageSet cluster_nodes storage_set replication strict = true ↔
      ∀ p ∈ replication,
        p.2 ≤ countDomains cluster_nodes
          (storage_set.filter (eligPred cluster_nodes)) p.1 := by
  have hel : eligibleShards cluster_nodes strict storage_set =
      some (storage_set.filter (eligPred cluster_nodes)) := by
    cases strict with
    | false => exact eligibleShards_false cluster_nodes storage_set
    | true => exact eligibleShards_true_of_present cluster_nodes storage_set (hp rfl)
  simp only [validStorageSet, hv, if_true, hel, canReplicate, List.all_eq_true,
    decide_eq_true_eq]

/-- C1 witness: with writable nodes A, B in rack 1 and C in rack 2 and a
requirement of 2 distinct racks, the storage set {A, B, C} passes and the
storage set {A, B} fails even though it has 2 eligible nodes. -/
theorem validStorageSet_rack_example :
    validStorageSet exTopology ssABC exRep false = true ∧
    validStorageSet exTopology ssAB exRep false = false := by
  constructor
  · exact (validStorageSet_distinct_domains exTopology ssABC exRep false
      (by decide) (fun h => Bool.noConfusion h)).mpr (by decide)
  · have h := validStorageSet_distinct_domains exTopology ssAB exRep false
      (by decide) (fun h => Bool.noConfusion h)
    rw [Bool.eq_false_iff]
    intro ht
    exact absurd (h.mp ht (Scope.rack, 2) (by decide)) (by decide)

/-- C2: inserting an epoch range whose half-open interval overlaps an
interval already present in the plan is rejected as a fatal invariant
violation — the operation aborts (`none`) and no merge or repair of the
payloads occurs. -/
theorem addEpochRange_overlap_rejected (plan : RebuildingPlan)
    (since until_ : Nat) (metadata : EpochMetaData)
    (h : ∃ r ∈ plan.epochsToRead, intervalsOverlap (since, until_) r.1 = true) :
    plan.addEpochRange since until_ metadata = none := by
  unfold RebuildingPlan.addEpochRange
  rw [if_pos]
  obtain ⟨r, hr, ho⟩ := h
  exact List.any_eq_true.mpr ⟨r, hr, ho⟩

/-- C2 witness: after `addEpochRange(1,10,M1)` and `addEpochRange(10,20,M2)`
succeed (non-overlapping half-open intervals), `addEpochRange(5,15,M3)` is
rejected. -/
theorem addEpochRange_overlap_example :
    ({} : RebuildingPlan).addEpochRange 1 10 ⟨1⟩ = some exPlanA ∧
    exPlanA.addEpochRange 10 20 ⟨2⟩ = some exPlanB ∧
    exPlanB.addEpochRange 5 15 ⟨3⟩ = none := by
  refine ⟨by decide, by decide, ?_⟩
  exact addEpochRange_overlap_rejected exPlanB 5 15 ⟨3⟩
    ⟨((1, 10), ⟨1⟩), by decide, by decide⟩

/-- C3: a storage set containing a shard whose node index is absent from the
topology returns false in strict mode; in non-strict mode such shards are
excluded from consideration and the check evaluates the remaining shards
normally (dropping every absent shard does not change the verdict). -/
theorem validStorageSet_strict_vs_nonstrict (cluster_nodes : List (Nat × Node))
    (storage_set : List ShardID) (replication : ReplicationProperty)
    (sh : ShardID) (hmem : sh ∈ storage_set)
    (habs : findKey sh.node cluster_nodes = none) :
    validStorageSet cluster_nodes storage_set replication true = false ∧
    validStorageSet cluster_nodes storage_set replication false =
      validStorageSet cluster_nodes
        (storage_set.filter (fun s => (findKey s.node cluster_nodes).isSome))
        replication false := by
  constructor
  · unfold validStorageSet
    cases hv : isValidReplication replication with
    | false => simp [hv]
    | true =>
      simp [hv, eligibleShards_true_absent cluster_nodes storage_set sh hmem habs]
  · unfold validStorageSet
    cases hv : isValidReplication replication with
    | false => simp [hv]
    | true =>
      rw [eligibleShards_false, eligibleShards_false]
      have hff : (storage_set.filter
          (fun s => (findKey s.node cluster_nodes).isSome)).filter
            (eligPred cluster_nodes) =
          storage_set.filter (eligPred cluster_nodes) := by
        rw [List.filter_filter]
        refine List.filter_congr ?_
        intro s _
        cases hf : findKey s.node cluster_nodes with
        | none => simp [eligPred, hf]
        | some n => simp [eligPred, hf]
      rw [hff]

/-- C3 witness: shard 9 is absent from the rack-scenario topology; adding it
to {A, B, C} fails in strict mode, while in non-strict mode the check equals
the check over the present shards. -/
theorem validStorageSet_strict_example :
    validStorageSet exTopology (ssABC ++ [ShardID.mk 9 0]) exRep true = false ∧
    validStorageSet exTopology (ssABC ++ [ShardID.mk 9 0]) exRep false =
      validStorageSet exTopology
        ((ssABC ++ [ShardID.mk 9 0]).filter (fun s => (findKey s.node exTopology).isSome))
        exRep false := by
  exact validStorageSet_strict_vs_nonstrict exTopology (ssABC ++ [ShardID.mk 9 0]) exRep
    (ShardID.mk 9 0) (by decide) (by decide)

/-- C4: node lookup by (index, generation): generation 0 is a wildcard
matching any stored generation (the lookup then behaves exactly like lookup
by index); a nonzero generation matches iff the index is present and the
stored generation equals it, reporting NOT_FOUND otherwise; an absent index
reports NOT_FOUND. -/
theorem getNodeByID_generation (nodes : List (Nat × Node)) (index g : Nat) :
    getNodeByID nodes index 0 = getNode nodes index ∧
    (0 < g → ∀ n : Node,
      (getNodeByID nodes index g = .ok n ↔
        (getNode nodes index = .ok n ∧ n.generation = g))) ∧
    (findKey index nodes = none →
      getNodeByID nodes index g = .error .NOTFOUND) := by
  refine ⟨?_, ?_, ?_⟩
  · unfold getNodeByID getNode
    cases h : findKey index nodes with
    | none => rfl
    | some n => simp
  · intro hg n
    unfold getNodeByID getNode
    cases h : findKey index nodes with
    | none => simp
    | some m =>
      by_cases hgen : m.generation = g
      · simp only [hgen, ne_eq, not_true_eq_false, and_false, if_false]
        constructor
        · rintro hok
          obtain rfl := Except.ok.injEq .. ▸ hok
          exact ⟨rfl, hgen⟩
        · rintro ⟨hok, _⟩
          exact hok
      · have hgz : g ≠ 0 := Nat.pos_iff_ne_zero.mp hg
        simp only [ne_eq, hgz, not_false_eq_true, hgen, and_self, if_true]
        constructor
        · intro hcontra
          exact Except.noConfusion hcontra
        · rintro ⟨hok, hng⟩
          obtain rfl := Except.ok.injEq .. ▸ hok
          exact absurd hng hgen
  · intro h
    unfold getNodeByID getNode
    simp [h]

/-- C4 witness: in the two-node map `goodNodes` (node 1 has generation 2),
generation 0 lookups are wildcards, matching nonzero generations succeed,
mismatching ones and absent indices report NOT_FOUND. -/
theorem getNodeByID_generation_example :
    getNodeByID goodNodes 1 0 = getNode goodNodes 1 ∧
    getNodeByID goodNodes 1 2 = .ok { nodeB with generation := 2 } ∧
    getNodeByID goodNodes 1 3 = .error .NOTFOUND ∧
    getNodeByID goodNodes 9 1 = .error .NOTFOUND := by
  obtain ⟨_, hpos, _⟩ := getNodeByID_generation goodNodes 1 2
  obtain ⟨_, _, habs⟩ := getNodeByID_generation goodNodes 9 1
  refine ⟨(getNodeByID_generation goodNodes 1 0).1, ?_, rfl, habs (by decide)⟩
  exact (hpos (by decide) { nodeB with generation := 2 }).mpr ⟨rfl, rfl⟩

/-- C5: node addresses are in bijection with node indices: construction with
two nodes sharing an address fails as a fatal invariant violation; in every
successfully constructed snapshot, `getNodeID` on a node's stored address
succeeds with `NodeID(index, stored generation)`, and on an address belonging
to no node fails with NOTFOUND. -/
theorem snapshot_address_bijection (cn : String) (nodes : List (Nat × Node))
    (ml : MetaDataLogsConfig) (pc : PrincipalsConfig) (sc : SecurityConfig)
    (tl : TraceLoggerConfig) (ts : TrafficShapingConfig) (zk : ZookeeperConfig)
    (sv cl : SettingsConfig) (il : InternalLogs) (ct : Option Nat)
    (cf : List (String × Nat)) (nd : String)
    (hnd : (nodes.map Prod.fst).Nodup) :
    ((∃ i n j m, (i, n) ∈ nodes ∧ (j, m) ∈ nodes ∧ i ≠ j ∧
        n.address = m.address) →
      fromData cn nodes ml pc sc tl ts zk sv cl il ct cf nd = none) ∧
    (∀ cfg : ServerConfig,
      fromData cn nodes ml pc sc tl ts zk sv cl il ct cf nd = some cfg →
      (∀ i : Nat, ∀ n : Node, (i, n) ∈ nodes →
        cfg.getNodeID n.address = .ok (i, n.generation)) ∧
      (∀ a : String, (∀ p ∈ nodes, p.2.address ≠ a) →
        cfg.getNodeID a = .error .NOTFOUND)) := by
  constructor
  · rintro ⟨i, n, j, m, hi, hj, hij, haddr⟩
    unfold fromData buildAddrToIndex
    rw [insertAddrs_dup hnd hi hj hij haddr []]
  · intro cfg h
    unfold fromData at h
    cases hb : buildAddrToIndex nodes with
    | none => rw [hb] at h; exact Option.noConfusion h
    | some a2i =>
      rw [hb] at h
      simp only [Option.some.injEq] at h
      subst h
      unfold buildAddrToIndex at hb
      constructor
      · intro i n hmem
        have h1 : findKey n.address a2i = some i := insertAddrs_some_mem hb hmem
        have h2 : findKey i nodes = some n := findKey_of_mem hnd hmem
        simp [ServerConfig.getNodeID, h1, h2]
      · intro a hall
        have h1 : findKey a a2i = none := insertAddrs_absent hb hall rfl
        simp [ServerConfig.getNodeID, h1]

/-- C5 witness: construction with the duplicate-address map `dupNodes` fails;
in the snapshot built from `goodNodes`, `getNodeID` inverts node A's address
"a" to `NodeID(0, 1)` and fails with NOTFOUND on the unused address "zz". -/
theorem snapshot_address_bijection_example :
    fromData "c" dupNodes ⟨[], 0⟩ ⟨0⟩ ⟨0⟩ ⟨0⟩ ⟨0⟩ ⟨[], 0⟩ ⟨0⟩ ⟨0⟩ ⟨0⟩
      none [] "/" = none ∧
    exCfg5.getNodeID "a" = .ok (0, 1) ∧
    exCfg5.getNodeID "zz" = .error .NOTFOUND := by
  have hgood := (snapshot_address_bijection "c5" goodNodes ⟨[], 0⟩ ⟨0⟩ ⟨0⟩ ⟨0⟩
    ⟨0⟩ ⟨[], 0⟩ ⟨0⟩ ⟨0⟩ ⟨0⟩ none [] "/" (by decide)).2 exCfg5 rfl
  refine ⟨?_, ?_, ?_⟩
  · exact (snapshot_address_bijection "c" dupNodes ⟨[], 0⟩ ⟨0⟩ ⟨0⟩ ⟨0⟩ ⟨0⟩
      ⟨[], 0⟩ ⟨0⟩ ⟨0⟩ ⟨0⟩ none [] "/" (by decide)).1
      ⟨0, dupNodeX, 1, dupNodeY, by decide, by decide, by decide, rfl⟩
  · exact hgood.1 0 nodeA (by decide)
  · exact hgood.2 "zz" (by decide)

/-- C6: whenever some sequencer-capable node has positive sequencer weight,
every weight of the constructed sequencers configuration equals the raw
weight divided by the maximum raw weight, and the maximum normalized weight
is exactly 1; if all sequencer weights are 0, every weight remains 0 (the
array is left unchanged). -/
theorem sequencer_weight_normalization (nodes : List (Nat × Node))
    (hnd : (nodes.map Prod.fst).Nodup) :
    ((∃ p ∈ nodes, p.2.hasSequencerRole = true ∧ 0 < p.2.sequencerWeight) →
      (∀ i : Nat, (buildSequencersConfig nodes).2[i]? =
        ((rawSequencersConfig nodes).2[i]?).map
          (fun w => w / listMax0 (rawSequencersConfig nodes).2)) ∧
      listMax0 (buildSequencersConfig nodes).2 = 1) ∧
    ((∀ p ∈ nodes, p.2.sequencerWeight = 0) →
      (buildSequencersConfig nodes).2 = (rawSequencersConfig nodes).2 ∧
      ∀ w ∈ (buildSequencersConfig nodes).2, w = 0) := by
  constructor
  · rintro ⟨⟨i, n⟩, hmem, hrole, hwpos⟩
    have hfk : findKey i nodes = some n := findKey_of_mem hnd hmem
    have hi : i ≤ maxNodeIdx nodes := mem_le_maxNodeIdx hmem
    have hspec := rawSeq_spec hnd hi
    rw [hfk] at hspec
    have hen : n.isSequencingEnabled = true := hrole
    simp only [hen, if_true, Prod.mk.injEq] at hspec
    have hw2 : (rawSequencersConfig nodes).2[i]? = some n.sequencerWeight :=
      hspec.2
    have hwmem : n.sequencerWeight ∈ (rawSequencersConfig nodes).2 :=
      List.getElem?_mem hw2
    have hmx : 0 < listMax0 (rawSequencersConfig nodes).2 :=
      lt_of_lt_of_le hwpos (le_foldl_max_of_mem hwmem 0)
    constructor
    · intro j
      simp only [buildSequencersConfig]
      rw [if_pos hmx]
      simp [List.getElem?_map]
    · simp only [buildSequencersConfig]
      rw [if_pos hmx]
      have := listMax0_map_div (listMax0 (rawSequencersConfig nodes).2) hmx
        (rawSequencersConfig nodes).2
      rw [this, div_self (ne_of_gt hmx)]
  · intro hz
    have hzall : ∀ x ∈ (rawSequencersConfig nodes).2, x = 0 := by
      unfold rawSequencersConfig
      exact fillSeq_zero nodes _ _ (fun x hx => List.eq_of_mem_replicate hx) hz
    have hne : ¬ (0 < listMax0 (rawSequencersConfig nodes).2) := by
      rw [listMax0_eq_zero hzall]
      exact lt_irrefl 0
    constructor
    · simp only [buildSequencersConfig]
      rw [if_neg hne]
    · intro w hw
      simp only [buildSequencersConfig] at hw
      rw [if_neg hne] at hw
      exact hzall w hw

/-- C6 witness: for the one-node map with sequencer weight 2, every
normalized weight equals the raw weight divided by the maximum weight, and
the maximum normalized weight is exactly 1. -/
theorem sequencer_weight_normalization_example :
    (∀ i : Nat, (buildSequencersConfig seqNodes2).2[i]? =
      ((rawSequencersConfig seqNodes2).2[i]?).map
        (fun w => w / listMax0 (rawSequencersConfig seqNodes2).2)) ∧
    listMax0 (buildSequencersConfig seqNodes2).2 = 1 :=
  (sequencer_weight_normalization seqNodes2 (by decide)).1
    ⟨(0, seqNode2), by decide, rfl, by decide⟩

/-- C7: `withNodes` yields a snapshot whose metadata-logs nodeset is exactly
the subsequence of the original nodeset whose node indices are present in the
new nodes map (a filter, so stale references are dropped and relative order
is preserved), and whose derived indices (address index and sequencers
configuration) are rebuilt from the new nodes. -/
theorem withNodes_metadata_intersection (s : ServerConfig)
    (newNodes : List (Nat × Node)) (s2 : ServerConfig)
    (h : s.withNodes newNodes = some s2) :
    s2.metaDataLogsConfig.metadata_nodes =
      s.metaDataLogsConfig.metadata_nodes.filter
        (fun n => (findKey n newNodes).isSome) ∧
    s2.nodesConfig = newNodes ∧
    buildAddrToIndex newNodes = some s2.addrToIndex ∧
    s2.sequencersNodes = (buildSequencersConfig newNodes).1 ∧
    s2.sequencersWeights = (buildSequencersConfig newNodes).2 := by
  simp only [ServerConfig.withNodes, fromData] at h
  cases hb : buildAddrToIndex newNodes with
  | none =>
    rw [hb] at h
    exact Option.noConfusion h
  | some a2i =>
    rw [hb] at h
    simp only [Option.some.injEq] at h
    subst h
    cases hm : s.myNodeID <;>
      simp [ServerConfig.setVersion, ServerConfig.carryMyNodeID,
        ServerConfig.setMyNodeID, ServerConfig.setMainConfigMetadata,
        ServerConfig.setIncludedConfigMetadata, hm]

/-- C7 witness: dropping node 1 from the `goodNodes` snapshot (whose
metadata nodeset is [0, 1]) intersects the metadata nodeset down to [0] and
rebuilds the derived indices from the single remaining node. -/
theorem withNodes_metadata_intersection_example :
    (exCfg5Meta.withNodes [(0, nodeA)]).map
        (fun c => c.metaDataLogsConfig.metadata_nodes) = some [0] := by
  have h := withNodes_metadata_intersection exCfg5Meta [(0, nodeA)]
    ((exCfg5Meta.withNodes [(0, nodeA)]).getD arbitraryConfig) rfl
  rw [show exCfg5Meta.withNodes [(0, nodeA)] =
    some ((exCfg5Meta.withNodes [(0, nodeA)]).getD arbitraryConfig) from rfl]
  simp only [Option.map_some']
  rw [h.1]
  rfl

/-- C8 (amended): `withVersion` and `withZookeeperConfig` each produce a new
snapshot in which exactly the named field is replaced and every other field —
cluster name, nodes, metadata-logs config, sub-configs, namespace delimiter,
custom fields, version (for `withZookeeperConfig`), my-node-ID, and
main/included config metadata provenance — equals that of the original,
except that the server origin is not carried forward: it is reset to its
default (unset) value, as only `copy` restores it. -/
theorem withVersion_withZookeeper_frame (s : ServerConfig) (v : Nat)
    (zk : ZookeeperConfig) :
    (∀ s2 : ServerConfig, s.withVersion v = some s2 →
      s2.version = v ∧
      s2.clusterName = s.clusterName ∧
      s2.clusterCreationTime = s.clusterCreationTime ∧
      s2.nodesConfig = s.nodesConfig ∧
      s2.metaDataLogsConfig = s.metaDataLogsConfig ∧
      s2.principalsConfig = s.principalsConfig ∧
      s2.securityConfig = s.securityConfig ∧
      s2.trafficShapingConfig = s.trafficShapingConfig ∧
      s2.traceLoggerConfig = s.traceLoggerConfig ∧
      s2.zookeeperConfig = s.zookeeperConfig ∧
      s2.serverSettingsConfig = s.serverSettingsConfig ∧
      s2.clientSettingsConfig = s.clientSettingsConfig ∧
      s2.internalLogs = s.internalLogs ∧
      s2.nsDelimiter = s.nsDelimiter ∧
      s2.customFields = s.customFields ∧
      s2.myNodeID = s.myNodeID ∧
      s2.mainConfigMetadata = s.mainConfigMetadata ∧
      s2.includedConfigMetadata = s.includedConfigMetadata ∧
      s2.serverOrigin = none) ∧
    (∀ s2 : ServerConfig, s.withZookeeperConfig zk = some s2 →
      s2.zookeeperConfig = zk ∧
      s2.version = s.version ∧
      s2.clusterName = s.clusterName ∧
      s2.clusterCreationTime = s.clusterCreationTime ∧
      s2.nodesConfig = s.nodesConfig ∧
      s2.metaDataLogsConfig = s.metaDataLogsConfig ∧
      s2.principalsConfig = s.principalsConfig ∧
      s2.securityConfig = s.securityConfig ∧
      s2.trafficShapingConfig = s.trafficShapingConfig ∧
      s2.traceLoggerConfig = s.traceLoggerConfig ∧
      s2.serverSettingsConfig = s.serverSettingsConfig ∧
      s2.clientSettingsConfig = s.clientSettingsConfig ∧
      s2.internalLogs = s.internalLogs ∧
      s2.nsDelimiter = s.nsDelimiter ∧
      s2.customFields = s.customFields ∧
      s2.myNodeID = s.myNodeID ∧
      s2.mainConfigMetadata = s.mainConfigMetadata ∧
      s2.includedConfigMetadata = s.includedConfigMetadata ∧
      s2.serverOrigin = none) := by
  constructor
  · intro s2 h
    simp only [ServerConfig.withVersion, fromData] at h
    cases hb : buildAddrToIndex s.nodesConfig with
    | none =>
      rw [hb] at h
      exact Option.noConfusion h
    | some a2i =>
      rw [hb] at h
      simp only [Option.some.injEq] at h
      subst h
      cases hm : s.myNodeID <;>
        simp [ServerConfig.setVersion, ServerConfig.carryMyNodeID,
          ServerConfig.setMyNodeID, ServerConfig.setMainConfigMetadata,
          ServerConfig.setIncludedConfigMetadata, hm]
  · intro s2 h
    simp only [ServerConfig.withZookeeperConfig, fromData] at h
    cases hb : buildAddrToIndex s.nodesConfig with
    | none =>
      rw [hb] at h
      exact Option.noConfusion h
    | some a2i =>
      rw [hb] at h
      simp only [Option.some.injEq] at h
      subst h
      cases hm : s.myNodeID <;>
        simp [ServerConfig.setVersion, ServerConfig.carryMyNodeID,
          ServerConfig.setMyNodeID, ServerConfig.setMainConfigMetadata,
          ServerConfig.setIncludedConfigMetadata, hm]

/-- C8 counterexample: on the snapshot `exCfg8`, whose server origin was set
to `NodeID(3, 1)`, both `withVersion` and `withZookeeperConfig` reset the
server origin to the unset default instead of carrying it forward, so the
claim's frame condition fails for the server-origin field. -/
theorem withVersion_origin_not_preserved :
    exCfg8.serverOrigin = some (3, 1) ∧
    (exCfg8.withVersion 7).map ServerConfig.serverOrigin = some none ∧
    (exCfg8.withZookeeperConfig ⟨["z"], 5⟩).map ServerConfig.serverOrigin =
      some none ∧
    (exCfg8.withVersion 7).map ServerConfig.serverOrigin ≠
      some exCfg8.serverOrigin := by
  refine ⟨rfl, rfl, rfl, ?_⟩
  intro h
  have h2 : (none : Option (Nat × Nat)) = some (3, 1) :=
    Option.some.injEq .. ▸ h
  exact Option.noConfusion h2

/-- C8 witness: applying the frame theorem to the concrete snapshot
`exCfg8`: the version is replaced, the cluster name and my-node-ID are
preserved, and the server origin comes out unset. -/
theorem withVersion_withZookeeper_frame_example :
    exCfg8v.version = 7 ∧ exCfg8v.clusterName = exCfg8.clusterName ∧
    exCfg8v.myNodeID = exCfg8.myNodeID ∧ exCfg8v.serverOrigin = none := by
  obtain ⟨h1, h2, rest⟩ :=
    (withVersion_withZookeeper_frame exCfg8 7 ⟨["z"], 5⟩).1 exCfg8v rfl
  exact ⟨h1, h2, rest.2.2.2.2.2.2.2.2.2.2.2.2.2.1, rest.2.2.2.2.2.2.2.2.2.2.2.2.2.2.2.2⟩

/-- C9: evaluation of the custom-fields pass of `fromJson` at a document with
a top-level `internal_logs` key.  `internal_logs` is missing from
`config_recognized_keys` in the source (ServerConfig.cpp lines 46-64) even
though `parseInternalLogs` parses it (line 131) and `toJson` emits it (line
643), so the code copies it into the opaque pass-through custom fields —
contradicting the claim that `internal_logs` is a recognized key and never a
pass-through field.  `include_log_config` is recognized, as claimed. -/
theorem internal_logs_is_custom_field :
    customFieldsOf [("internal_logs", 1), ("include_log_config", 2),
        ("my_custom_key", 3)] = [("internal_logs", 1), ("my_custom_key", 3)] ∧
    "internal_logs" ∉ configRecognizedKeys ∧
    "include_log_config" ∈ configRecognizedKeys := by
  refine ⟨rfl, by decide, by decide⟩

/-- C10 counterexample: after constructing the snapshot over the one-node map
`seqNodes2` (sequencer weight 2), the weights array holds the normalized
weight 1, not the node's sequencer weight 2, because the constructor
normalizes the weights in the same pass (ServerConfig.cpp lines 214-225). -/
theorem sequencersConfig_weight_not_raw :
    (buildSequencersConfig seqNodes2).2[0]? = some 1 ∧
    seqNode2.sequencerWeight = 2 ∧
    (buildSequencersConfig seqNodes2).2[0]? ≠ some seqNode2.sequencerWeight := by
  have hb1 : (buildSequencersConfig seqNodes2).2 = [1] := by
    rw [show (buildSequencersConfig seqNodes2).2 = [(2 : ℚ) / 2] from rfl]
    norm_num
  refine ⟨by rw [hb1]; rfl, rfl, ?_⟩
  rw [hb1]
  intro h
  simp only [List.getElem?_cons_zero, Option.some.injEq] at h
  have h2 : (1 : ℚ) = 2 := h
  norm_num at h2

/-- C10 (amended): after construction the sequencers configuration consists
of two parallel arrays of length `getMaxNodeIdx() + 1`: every index whose
node has sequencing enabled holds `NodeID(index, generation)` and that node's
*normalized* sequencer weight (the raw weight divided by the maximum raw
weight when that maximum is positive, the raw weight — necessarily 0 —
otherwise), and every other index, including gaps in the numbering, holds the
default invalid NodeID (`none`) and weight 0. -/
theorem sequencersConfig_characterization (nodes : List (Nat × Node))
    (hnd : (nodes.map Prod.fst).Nodup) :
    (buildSequencersConfig nodes).1.length = maxNodeIdx nodes + 1 ∧
    (buildSequencersConfig nodes).2.length = maxNodeIdx nodes + 1 ∧
    ∀ i : Nat, i ≤ maxNodeIdx nodes →
      match findKey i nodes with
      | some n =>
        if n.isSequencingEnabled = true then
          (buildSequencersConfig nodes).1[i]? = some (some (i, n.generation)) ∧
          (buildSequencersConfig nodes).2[i]? =
            some (if 0 < listMax0 (rawSequencersConfig nodes).2 then
                n.sequencerWeight / listMax0 (rawSequencersConfig nodes).2
              else n.sequencerWeight)
        else
          (buildSequencersConfig nodes).1[i]? = some none ∧
          (buildSequencersConfig nodes).2[i]? = some 0
      | none =>
        (buildSequencersConfig nodes).1[i]? = some none ∧
        (buildSequencersConfig nodes).2[i]? = some 0 := by
  have h1 : (buildSequencersConfig nodes).1 = (rawSequencersConfig nodes).1 := rfl
  have hlen := rawSeq_length nodes
  refine ⟨?_, ?_, ?_⟩
  · rw [h1, hlen.1]
  · simp only [buildSequencersConfig]
    by_cases hmx : 0 < listMax0 (rawSequencersConfig nodes).2
    · rw [if_pos hmx]
      simp [List.length_map, hlen.2]
    · rw [if_neg hmx]
      exact hlen.2
  · intro i hi
    have hspec := rawSeq_spec hnd hi
    have hget2 : ∀ w : ℚ, (rawSequencersConfig nodes).2[i]? = some w →
        (buildSequencersConfig nodes).2[i]? =
          some (if 0 < listMax0 (rawSequencersConfig nodes).2 then
              w / listMax0 (rawSequencersConfig nodes).2
            else w) := by
      intro w hw
      simp only [buildSequencersConfig]
      by_cases hmx : 0 < listMax0 (rawSequencersConfig nodes).2
      · rw [if_pos hmx, if_pos hmx]
        simp [List.getElem?_map, hw]
      · rw [if_neg hmx, if_neg hmx]
        exact hw
    cases hf : findKey i nodes with
    | none =>
      rw [hf] at hspec
      simp only [Prod.mk.injEq] at hspec
      have hz := hget2 0 hspec.2
      exact ⟨h1 ▸ hspec.1, by simpa [zero_div] using hz⟩
    | some n =>
      rw [hf] at hspec
      cases hen : n.isSequencingEnabled with
      | true =>
        simp only [hen, if_true, Prod.mk.injEq] at hspec
        simp only [hen, if_true]
        exact ⟨h1 ▸ hspec.1, hget2 n.sequencerWeight hspec.2⟩
      | false =>
        simp only [hen, Bool.false_eq_true, if_false, Prod.mk.injEq] at hspec
        simp only [hen, Bool.false_eq_true, if_false]
        have hz := hget2 0 hspec.2
        exact ⟨h1 ▸ hspec.1, by simpa [zero_div] using hz⟩

/-- C10 witness: applying the characterization to the concrete one-node map
`seqNodes2`. -/
theorem sequencersConfig_characterization_example :
    (buildSequencersConfig seqNodes2).1.length = maxNodeIdx seqNodes2 + 1 ∧
    (buildSequencersConfig seqNodes2).2.length = maxNodeIdx seqNodes2 + 1 :=
  ⟨(sequencersConfig_characterization seqNodes2 (by decide)).1,
   (sequencersConfig_characterization seqNodes2 (by decide)).2.1⟩
